import Mathlib

/-!
Shallow embedding of the zinternal C logging library (src/logger.h,
src/logger.c): a process-wide logger with a spinlock, an optional output
stream, and an integer severity threshold.

Modelling choices, in one place:

* A FILE pointer is modelled by Option FileHandle; none is the NULL
  pointer.  The distinguished default error stream is FileHandle.stderr;
  every other stream is FileHandle.stream id.
* The C global state (g_lock, g_output, g_level) becomes the record
  LoggerState, threaded explicitly through each operation.
* Observable I/O (vfprintf, fflush, fclose) is recorded as a list of
  events returned next to the new state.  vfprintf renders the format
  string with its variadic arguments via libc, outside this repository;
  the embedding therefore takes the already-rendered message as a String
  and the write event carries exactly that string, reflecting that the
  code passes fmt and args to vfprintf untouched and appends nothing.
* The assert in zlog_write is active exactly when the Bool parameter
  assertsEnabled is true (assertions compiled in); a failed assert is the
  WriteResult.aborted outcome.
* The spinlock is sequentially modelled by a Bool field; acquiring sets
  it, releasing clears it.  A separate interleaved small-step model
  (ConcState / CStep below) is used for the concurrency claim.
-/

/-- A non-NULL FILE pointer: either the default error stream or some other
stream identified by a number. -/
inductive FileHandle
  | stderr
  | stream (id : Nat)
deriving DecidableEq, Repr

/-- Observable side effects of the logger: a formatted write of a rendered
message to a stream (vfprintf), a flush of a stream (fflush), and a close
of a stream (fclose). -/
inductive Event
  | write (dest : FileHandle) (msg : String)
  | flush (dest : FileHandle)
  | close (h : FileHandle)
deriving DecidableEq, Repr

/-- The global state of logger.c: the spinlock g_lock (false is 0,
unlocked), the output stream g_output (none is NULL), and the threshold
g_level (a C int). -/
structure LoggerState where
  g_lock : Bool
  g_output : Option FileHandle
  g_level : Int
deriving DecidableEq, Repr

/-- ZLOG_TRACE from logger.h. -/
def ZLOG_TRACE : Int := 0

/-- ZLOG_DEBUG from logger.h. -/
def ZLOG_DEBUG : Int := 1

/-- ZLOG_INFO from logger.h. -/
def ZLOG_INFO : Int := 2

/-- ZLOG_WARN from logger.h. -/
def ZLOG_WARN : Int := 3

/-- ZLOG_ERR from logger.h. -/
def ZLOG_ERR : Int := 4

/-- ZLOG_FATAL from logger.h. -/
def ZLOG_FATAL : Int := 5

/-- The state at program start: g_lock = 0, g_output = NULL,
g_level = ZLOG_INFO (logger.c lines 62-64). -/
def initialState : LoggerState :=
  { g_lock := false, g_output := none, g_level := ZLOG_INFO }

/-- spinlock_lock, sequential view: the lock is eventually acquired. -/
def spinlock_lock (s : LoggerState) : LoggerState :=
  { s with g_lock := true }

/-- spinlock_unlock: store 0 into the flag. -/
def spinlock_unlock (s : LoggerState) : LoggerState :=
  { s with g_lock := false }

/-- get_output from logger.c: g_output if non-NULL, else stderr. -/
def get_output (s : LoggerState) : FileHandle :=
  match s.g_output with
  | some h => h
  | none => FileHandle.stderr

/-- validate_level from logger.c: in-range levels pass through, anything
else becomes ZLOG_INFO. -/
def validate_level (level : Int) : Int :=
  if ZLOG_TRACE ≤ level ∧ level ≤ ZLOG_FATAL then level else ZLOG_INFO

/-- zlog_init from logger.c: under the lock, store the given stream (or
stderr when the caller passed NULL) and the validated level. -/
def zlog_init (out : Option FileHandle) (level : Int) (s : LoggerState) :
    LoggerState × List Event :=
  let s1 := spinlock_lock s
  let s2 := { s1 with
    g_output := some (out.getD FileHandle.stderr),
    g_level := validate_level level }
  (spinlock_unlock s2, [])

/-- zlog_shutdown from logger.c: under the lock, fclose the stream when it
is set and is not stderr, then store NULL into g_output.  The threshold
g_level is not touched. -/
def zlog_shutdown (s : LoggerState) : LoggerState × List Event :=
  let s1 := spinlock_lock s
  let evs := match s1.g_output with
    | some h => if h = FileHandle.stderr then [] else [Event.close h]
    | none => []
  let s2 := { s1 with g_output := none }
  (spinlock_unlock s2, evs)

/-- zlog_get_level from logger.c: an unlocked read of g_level. -/
def zlog_get_level (s : LoggerState) : Int :=
  s.g_level

/-- zlog_set_level from logger.c: under the lock, store the validated
level. -/
def zlog_set_level (level : Int) (s : LoggerState) : LoggerState × List Event :=
  let s1 := spinlock_lock s
  let s2 := { s1 with g_level := validate_level level }
  (spinlock_unlock s2, [])

/-- Outcome of a call that contains an assert: either the process aborted
(assert failed with assertions compiled in), or the call returned with a
new state and a list of emitted events. -/
inductive WriteResult
  | aborted
  | ok (s : LoggerState) (evs : List Event)
deriving DecidableEq, Repr

/-- zlog_write from logger.c: assert g_output is non-NULL (active only
when assertions are compiled in), then under the lock write and flush the
rendered message when g_output is set and the level passes the threshold
re-check.  The msg argument stands for the vfprintf rendering of fmt with
args. -/
def zlog_write (assertsEnabled : Bool) (level : Int) (msg : String)
    (s : LoggerState) : WriteResult :=
  if assertsEnabled ∧ s.g_output = none then
    WriteResult.aborted
  else
    let s1 := spinlock_lock s
    match s1.g_output with
    | some dest =>
      if s1.g_level ≤ level then
        WriteResult.ok (spinlock_unlock s1) [Event.write dest msg, Event.flush dest]
      else
        WriteResult.ok (spinlock_unlock s1) []
    | none => WriteResult.ok (spinlock_unlock s1) []

/-- The shared shape of the six emission functions in logger.c: return at
once when the fixed severity is strictly below the unlocked read of
g_level, else call zlog_write. -/
def zlog_emit (assertsEnabled : Bool) (sev : Int) (msg : String)
    (s : LoggerState) : WriteResult :=
  if sev < s.g_level then WriteResult.ok s []
  else zlog_write assertsEnabled sev msg s

/-- zlog_trace from logger.c. -/
def zlog_trace (assertsEnabled : Bool) (msg : String) (s : LoggerState) : WriteResult :=
  zlog_emit assertsEnabled ZLOG_TRACE msg s

/-- zlog_debug from logger.c. -/
def zlog_debug (assertsEnabled : Bool) (msg : String) (s : LoggerState) : WriteResult :=
  zlog_emit assertsEnabled ZLOG_DEBUG msg s

/-- zlog_info from logger.c. -/
def zlog_info (assertsEnabled : Bool) (msg : String) (s : LoggerState) : WriteResult :=
  zlog_emit assertsEnabled ZLOG_INFO msg s

/-- zlog_warn from logger.c. -/
def zlog_warn (assertsEnabled : Bool) (msg : String) (s : LoggerState) : WriteResult :=
  zlog_emit assertsEnabled ZLOG_WARN msg s

/-- zlog_err from logger.c. -/
def zlog_err (assertsEnabled : Bool) (msg : String) (s : LoggerState) : WriteResult :=
  zlog_emit assertsEnabled ZLOG_ERR msg s

/-- zlog_fatal from logger.c. -/
def zlog_fatal (assertsEnabled : Bool) (msg : String) (s : LoggerState) : WriteResult :=
  zlog_emit assertsEnabled ZLOG_FATAL msg s

/-- The event list of a call outcome, or none when the process aborted. -/
def resultEvents : WriteResult → Option (List Event)
  | WriteResult.aborted => none
  | WriteResult.ok _ evs => some evs

/-- The state after a call outcome, or none when the process aborted. -/
def resultState : WriteResult → Option LoggerState
  | WriteResult.aborted => none
  | WriteResult.ok s _ => some s

/-- One call of the public API of logger.h, with its arguments. -/
inductive ApiCall
  | init (out : Option FileHandle) (level : Int)
  | shutdown
  | setLevel (level : Int)
  | getLevel
  | trace (msg : String)
  | debugCall (msg : String)
  | info (msg : String)
  | warn (msg : String)
  | err (msg : String)
  | fatal (msg : String)
deriving DecidableEq, Repr

/-- The state transition of one public API call; none when the call
aborted the process. -/
def stepCall (assertsEnabled : Bool) : ApiCall → LoggerState → Option LoggerState
  | ApiCall.init out level, s => some (zlog_init out level s).1
  | ApiCall.shutdown, s => some (zlog_shutdown s).1
  | ApiCall.setLevel level, s => some (zlog_set_level level s).1
  | ApiCall.getLevel, s => some s
  | ApiCall.trace msg, s => resultState (zlog_trace assertsEnabled msg s)
  | ApiCall.debugCall msg, s => resultState (zlog_debug assertsEnabled msg s)
  | ApiCall.info msg, s => resultState (zlog_info assertsEnabled msg s)
  | ApiCall.warn msg, s => resultState (zlog_warn assertsEnabled msg s)
  | ApiCall.err msg, s => resultState (zlog_err assertsEnabled msg s)
  | ApiCall.fatal msg, s => resultState (zlog_fatal assertsEnabled msg s)

/-- A level is a valid member of the Severity enumeration, ZLOG_TRACE
through ZLOG_FATAL. -/
def validLevel (level : Int) : Prop :=
  ZLOG_TRACE ≤ level ∧ level ≤ ZLOG_FATAL

instance (level : Int) : Decidable (validLevel level) := by
  unfold validLevel
  infer_instance

/-!
Interleaved small-step model of N threads each running one at-or-above-
threshold emission (logger.c zlog_write) against a fixed sink and a fixed
threshold, for the serialization claim.  Each thread passes the fast-path
filter and the locked re-check (the claim fixes the severities at or above
the threshold and has no concurrent set_level), so what remains of the
critical section is: acquire the spinlock by a successful compare-and-swap,
write the rendered message into the sink, release the lock.  A failed
compare-and-swap leaves the state unchanged and is therefore omitted from
the step relation.  The write inside the critical section is decomposed
into single-byte writes, the worst case for interleaving, so the theorem
rules out byte-level corruption. -/

/-- Program counter of one emitting thread: before the lock, inside the
critical section with the bytes still to write, or finished. -/
inductive ThreadPC
  | start
  | writing (rest : List Char)
  | done
deriving DecidableEq, Repr

/-- A snapshot of the interleaved execution: each thread's program
counter, the lock holder (none is unlocked), and the bytes received by
the sink so far. -/
structure ConcState (n : Nat) where
  pcs : Fin n → ThreadPC
  owner : Option (Fin n)
  out : List Char

/-- Initial snapshot: every thread before its lock acquisition, lock free,
sink empty. -/
def initConc (n : Nat) : ConcState n :=
  { pcs := fun _ => ThreadPC.start, owner := none, out := [] }

/-- One atomic step of the interleaved execution.  msgs gives each
thread's rendered message. -/
inductive CStep {n : Nat} (msgs : Fin n → List Char) :
    ConcState n → ConcState n → Prop
  | acquire (s : ConcState n) (i : Fin n) :
      s.pcs i = ThreadPC.start → s.owner = none →
      CStep msgs s { s with
        pcs := Function.update s.pcs i (ThreadPC.writing (msgs i)),
        owner := some i }
  | writeByte (s : ConcState n) (i : Fin n) (b : Char) (rest : List Char) :
      s.pcs i = ThreadPC.writing (b :: rest) → s.owner = some i →
      CStep msgs s { s with
        pcs := Function.update s.pcs i (ThreadPC.writing rest),
        out := s.out ++ [b] }
  | release (s : ConcState n) (i : Fin n) :
      s.pcs i = ThreadPC.writing [] → s.owner = some i →
      CStep msgs s { s with
        pcs := Function.update s.pcs i ThreadPC.done,
        owner := none }

/-- What the lock protects: when the lock is free no thread is inside the
critical section and the sink holds the complete messages of the finished
threads (in order of the list); when thread i holds the lock, only i is
inside, and the sink holds the finished messages followed by the prefix
of the message of i written so far. -/
def WriterInv {n : Nat} (msgs : Fin n → List Char) (s : ConcState n)
    (order : List (Fin n)) : Prop :=
  match s.owner with
  | none =>
    (∀ j rest, s.pcs j ≠ ThreadPC.writing rest) ∧
    s.out = (order.map msgs).flatten
  | some i =>
    ∃ written rest, s.pcs i = ThreadPC.writing rest ∧
      msgs i = written ++ rest ∧
      s.out = (order.map msgs).flatten ++ written ∧
      ∀ j, j ≠ i → ∀ rest2, s.pcs j ≠ ThreadPC.writing rest2

/-- Reachability invariant of the interleaved execution: some duplicate-
free list records the finished threads, and the sink contents are governed
by WriterInv. -/
def ConcInv {n : Nat} (msgs : Fin n → List Char) (s : ConcState n) : Prop :=
  ∃ order : List (Fin n), order.Nodup ∧
    (∀ j, s.pcs j = ThreadPC.done ↔ j ∈ order) ∧
    WriterInv msgs s order

/-!
Helper lemmas shared by the claim theorems.
-/

theorem validate_level_of_valid (level : Int) (h : validLevel level) :
    validate_level level = level := by
  unfold validate_level
  unfold validLevel at h
  exact if_pos h

theorem validate_level_valid (level : Int) :
    validLevel (validate_level level) := by
  unfold validate_level validLevel ZLOG_TRACE ZLOG_FATAL ZLOG_INFO
  split <;> omega

theorem zlog_emit_of_output_some (a : Bool) (sev : Int) (msg : String)
    (s : LoggerState) (dest : FileHandle) (h : s.g_output = some dest) :
    zlog_emit a sev msg s =
      if s.g_level ≤ sev then
        WriteResult.ok { s with g_lock := false }
          [Event.write dest msg, Event.flush dest]
      else WriteResult.ok s [] := by
  unfold zlog_emit zlog_write spinlock_lock spinlock_unlock
  by_cases hlt : sev < s.g_level
  · simp [hlt, not_le.mpr hlt]
  · simp [hlt, not_lt.mp hlt, h]

theorem resultEvents_emit_of_output_some (a : Bool) (sev : Int) (msg : String)
    (s : LoggerState) (dest : FileHandle) (h : s.g_output = some dest) :
    resultEvents (zlog_emit a sev msg s) =
      some (if s.g_level ≤ sev then
        [Event.write dest msg, Event.flush dest] else []) := by
  rw [zlog_emit_of_output_some a sev msg s dest h]
  split <;> rfl

theorem zlog_emit_none_asserts (sev : Int) (msg : String) (s : LoggerState)
    (h : s.g_output = none) :
    zlog_emit true sev msg s =
      if sev < s.g_level then WriteResult.ok s []
      else WriteResult.aborted := by
  unfold zlog_emit zlog_write
  by_cases hlt : sev < s.g_level
  · simp [hlt]
  · simp [hlt, h]

theorem resultEvents_emit_none_noasserts (sev : Int) (msg : String)
    (s : LoggerState) (h : s.g_output = none) :
    resultEvents (zlog_emit false sev msg s) = some [] := by
  by_cases hlt : sev < s.g_level
  · simp [zlog_emit, hlt, resultEvents]
  · simp [zlog_emit, zlog_write, spinlock_lock, spinlock_unlock, hlt, h,
      resultEvents]

theorem zlog_emit_ok_inv (a : Bool) (sev : Int) (msg : String)
    (s s' : LoggerState) (evs : List Event)
    (h : zlog_emit a sev msg s = WriteResult.ok s' evs) :
    s' = s ∨ s' = { s with g_lock := false } := by
  unfold zlog_emit zlog_write spinlock_lock spinlock_unlock at h
  split at h
  · cases h
    exact Or.inl rfl
  · split at h
    · cases h
    · dsimp only at h
      split at h
      · split at h
        · cases h
          exact Or.inr rfl
        · cases h
          exact Or.inr rfl
      · cases h
        exact Or.inr rfl

/-!
Claim theorems.
-/

/-- Claim C1, counterexample: init with a non-default sink and threshold
Warn, then shutdown; zlog_get_level afterwards returns Warn, not Info,
because zlog_shutdown never touches g_level. -/
theorem C1_counterexample :
    zlog_get_level
      (zlog_shutdown
        (zlog_init (some (FileHandle.stream 0)) ZLOG_WARN initialState).1).1
      = ZLOG_WARN ∧
    ZLOG_WARN ≠ ZLOG_INFO := by
  constructor
  · rfl
  · decide

/-- Claim C1 (amended): after zlog_shutdown the sink is cleared to NULL
(get_output reads it as the default error stream), but the threshold is
not reset: zlog_get_level returns whatever threshold was stored before
the shutdown, which is Info only when no init or set_level changed it. -/
theorem C1_shutdown_default_state (s : LoggerState) :
    (zlog_shutdown s).1.g_output = none ∧
    get_output (zlog_shutdown s).1 = FileHandle.stderr ∧
    zlog_get_level (zlog_shutdown s).1 = zlog_get_level s :=
  ⟨rfl, rfl, rfl⟩

/-- Claim C5: any level outside the range ZLOG_TRACE..ZLOG_FATAL given to
zlog_set_level or zlog_init is stored as ZLOG_INFO, and neither call
reports anything to the caller (both return void; the model shows no
events either). -/
theorem C5_invalid_level_coerced (level : Int)
    (h : level < ZLOG_TRACE ∨ ZLOG_FATAL < level) (s : LoggerState)
    (out : Option FileHandle) :
    (zlog_set_level level s).1.g_level = ZLOG_INFO ∧
    (zlog_set_level level s).2 = [] ∧
    (zlog_init out level s).1.g_level = ZLOG_INFO ∧
    (zlog_init out level s).2 = [] := by
  have hv : validate_level level = ZLOG_INFO := by
    unfold validate_level
    unfold ZLOG_TRACE ZLOG_FATAL at h ⊢
    rw [if_neg (by omega)]
  exact ⟨by simp [zlog_set_level, spinlock_lock, spinlock_unlock, hv], rfl,
    by simp [zlog_init, spinlock_lock, spinlock_unlock, hv], rfl⟩

/-- Claim C5, witness at the concrete invalid level 9. -/
theorem C5_witness :
    (zlog_set_level 9 initialState).1.g_level = ZLOG_INFO ∧
    (zlog_set_level 9 initialState).2 = [] ∧
    (zlog_init none 9 initialState).1.g_level = ZLOG_INFO ∧
    (zlog_init none 9 initialState).2 = [] :=
  C5_invalid_level_coerced 9 (Or.inr (by decide)) initialState none

/-- Claim C6: for every valid severity L and every starting state,
zlog_set_level L followed by zlog_get_level returns L. -/
theorem C6_set_then_get (L : Int) (h : validLevel L) (s : LoggerState) :
    zlog_get_level (zlog_set_level L s).1 = L := by
  have hv := validate_level_of_valid L h
  simp [zlog_set_level, zlog_get_level, spinlock_lock, spinlock_unlock, hv]

/-- Claim C6, witness at L = ZLOG_ERR from a state whose threshold was
Debug. -/
theorem C6_witness :
    zlog_get_level
      (zlog_set_level ZLOG_ERR (LoggerState.mk false none ZLOG_DEBUG)).1
      = ZLOG_ERR :=
  C6_set_then_get ZLOG_ERR (by decide) (LoggerState.mk false none ZLOG_DEBUG)

/-- Claim C7: zlog_shutdown emits a close exactly for a sink that is set
and is not stderr, clears g_output to NULL, and a second shutdown with no
intervening init closes nothing and returns the state unchanged. -/
theorem C7_shutdown_behaviour (s : LoggerState) :
    ((zlog_shutdown s).2 = match s.g_output with
      | some h => if h = FileHandle.stderr then [] else [Event.close h]
      | none => []) ∧
    (zlog_shutdown s).1.g_output = none ∧
    zlog_shutdown (zlog_shutdown s).1 = ((zlog_shutdown s).1, []) :=
  ⟨rfl, rfl, rfl⟩

theorem resultState_eq_some (r : WriteResult) (s' : LoggerState)
    (h : resultState r = some s') : ∃ evs, r = WriteResult.ok s' evs := by
  cases r with
  | aborted => cases h
  | ok s evs =>
    injection h with h
    subst h
    exact ⟨evs, rfl⟩

/-- Claim C2: in a single-threaded execution after init (the sink is set),
an emission of fixed severity S against the stored threshold T produces no
events when S is below T, and exactly one write whose contents are exactly
the rendered message (followed by its flush; no newline or timestamp is
appended) when S is at or above T.  Stated for each of the six emission
functions; msg is the vfprintf rendering of the format string with its
arguments. -/
theorem C2_filter_and_single_write (a : Bool) (msg : String) (s : LoggerState)
    (dest : FileHandle) (h : s.g_output = some dest) :
    (resultEvents (zlog_trace a msg s) = some (if s.g_level ≤ ZLOG_TRACE
      then [Event.write dest msg, Event.flush dest] else [])) ∧
    (resultEvents (zlog_debug a msg s) = some (if s.g_level ≤ ZLOG_DEBUG
      then [Event.write dest msg, Event.flush dest] else [])) ∧
    (resultEvents (zlog_info a msg s) = some (if s.g_level ≤ ZLOG_INFO
      then [Event.write dest msg, Event.flush dest] else [])) ∧
    (resultEvents (zlog_warn a msg s) = some (if s.g_level ≤ ZLOG_WARN
      then [Event.write dest msg, Event.flush dest] else [])) ∧
    (resultEvents (zlog_err a msg s) = some (if s.g_level ≤ ZLOG_ERR
      then [Event.write dest msg, Event.flush dest] else [])) ∧
    (resultEvents (zlog_fatal a msg s) = some (if s.g_level ≤ ZLOG_FATAL
      then [Event.write dest msg, Event.flush dest] else [])) :=
  ⟨resultEvents_emit_of_output_some a ZLOG_TRACE msg s dest h,
   resultEvents_emit_of_output_some a ZLOG_DEBUG msg s dest h,
   resultEvents_emit_of_output_some a ZLOG_INFO msg s dest h,
   resultEvents_emit_of_output_some a ZLOG_WARN msg s dest h,
   resultEvents_emit_of_output_some a ZLOG_ERR msg s dest h,
   resultEvents_emit_of_output_some a ZLOG_FATAL msg s dest h⟩

/-- Claim C2, witness: with threshold Info and a non-default sink, a warn
emission writes exactly the message once, a trace emission writes
nothing. -/
theorem C2_witness :
    resultEvents (zlog_warn false "m"
        (LoggerState.mk false (some (FileHandle.stream 0)) ZLOG_INFO)) =
      some [Event.write (FileHandle.stream 0) "m",
            Event.flush (FileHandle.stream 0)] ∧
    resultEvents (zlog_trace false "m"
        (LoggerState.mk false (some (FileHandle.stream 0)) ZLOG_INFO)) =
      some [] := by
  have h := C2_filter_and_single_write false "m"
    (LoggerState.mk false (some (FileHandle.stream 0)) ZLOG_INFO)
    (FileHandle.stream 0) rfl
  refine ⟨?_, ?_⟩
  · simpa [ZLOG_INFO, ZLOG_WARN] using h.2.2.2.1
  · simpa [ZLOG_INFO, ZLOG_TRACE] using h.1

/-- Claim C3, counterexample: with assertions enabled and in the start
state (no init ever called), zlog_trace returns silently without writing
and without aborting, because the fast-path filter (Trace below the
default threshold Info) returns before zlog_write and its assert are ever
reached.  So not every pre-init emission aborts. -/
theorem C3_counterexample :
    zlog_trace true "x" initialState = WriteResult.ok initialState [] ∧
    zlog_trace true "x" initialState ≠ WriteResult.aborted := by
  refine ⟨rfl, ?_⟩
  intro hcontra
  rw [show zlog_trace true "x" initialState = WriteResult.ok initialState []
    from rfl] at hcontra
  cases hcontra

/-- Claim C3 (amended): with assertions compiled in, an emission call in a
state whose sink is NULL (in particular before the first init, where the
threshold is Info) aborts on the assert exactly when its fixed severity is
at or above the current threshold; a below-threshold call returns silently
through the fast-path filter, writing nothing and not aborting.  Stated
for each of the six emission functions. -/
theorem C3_abort_iff_at_or_above_threshold (msg : String) (s : LoggerState)
    (h : s.g_output = none) :
    (zlog_trace true msg s = if ZLOG_TRACE < s.g_level
      then WriteResult.ok s [] else WriteResult.aborted) ∧
    (zlog_debug true msg s = if ZLOG_DEBUG < s.g_level
      then WriteResult.ok s [] else WriteResult.aborted) ∧
    (zlog_info true msg s = if ZLOG_INFO < s.g_level
      then WriteResult.ok s [] else WriteResult.aborted) ∧
    (zlog_warn true msg s = if ZLOG_WARN < s.g_level
      then WriteResult.ok s [] else WriteResult.aborted) ∧
    (zlog_err true msg s = if ZLOG_ERR < s.g_level
      then WriteResult.ok s [] else WriteResult.aborted) ∧
    (zlog_fatal true msg s = if ZLOG_FATAL < s.g_level
      then WriteResult.ok s [] else WriteResult.aborted) :=
  ⟨zlog_emit_none_asserts ZLOG_TRACE msg s h,
   zlog_emit_none_asserts ZLOG_DEBUG msg s h,
   zlog_emit_none_asserts ZLOG_INFO msg s h,
   zlog_emit_none_asserts ZLOG_WARN msg s h,
   zlog_emit_none_asserts ZLOG_ERR msg s h,
   zlog_emit_none_asserts ZLOG_FATAL msg s h⟩

/-- Claim C3, witness: in the start state with assertions enabled,
zlog_info aborts on the assert while zlog_debug returns silently. -/
theorem C3_witness :
    zlog_info true "x" initialState = WriteResult.aborted ∧
    zlog_debug true "x" initialState = WriteResult.ok initialState [] := by
  have h := C3_abort_iff_at_or_above_threshold "x" initialState rfl
  refine ⟨?_, ?_⟩
  · simpa [ZLOG_INFO, initialState] using h.2.2.1
  · simpa [ZLOG_DEBUG, ZLOG_INFO, initialState] using h.2.1

/-- Claim C9: an emission call entered with the lock unlocked leaves the
lock unlocked whenever it returns, in every branch, including the branch
where the locked re-check against the threshold fails and nothing is
written.  Stated for each of the six emission functions. -/
theorem C9_lock_released (a : Bool) (msg : String) (s : LoggerState)
    (hl : s.g_lock = false) :
    (∀ s1 evs, zlog_trace a msg s = WriteResult.ok s1 evs → s1.g_lock = false) ∧
    (∀ s1 evs, zlog_debug a msg s = WriteResult.ok s1 evs → s1.g_lock = false) ∧
    (∀ s1 evs, zlog_info a msg s = WriteResult.ok s1 evs → s1.g_lock = false) ∧
    (∀ s1 evs, zlog_warn a msg s = WriteResult.ok s1 evs → s1.g_lock = false) ∧
    (∀ s1 evs, zlog_err a msg s = WriteResult.ok s1 evs → s1.g_lock = false) ∧
    (∀ s1 evs, zlog_fatal a msg s = WriteResult.ok s1 evs → s1.g_lock = false) := by
  have key : ∀ sev s1 evs,
      zlog_emit a sev msg s = WriteResult.ok s1 evs → s1.g_lock = false := by
    intro sev s1 evs hok
    rcases zlog_emit_ok_inv a sev msg s s1 evs hok with rfl | rfl
    · exact hl
    · rfl
  exact ⟨key ZLOG_TRACE, key ZLOG_DEBUG, key ZLOG_INFO, key ZLOG_WARN,
    key ZLOG_ERR, key ZLOG_FATAL⟩

/-- Claim C9, witness: a concrete completed info emission (sink stderr,
threshold Info, write performed) ends with the lock unlocked. -/
theorem C9_witness :
    zlog_info false "m" (LoggerState.mk false (some FileHandle.stderr) ZLOG_INFO) =
      WriteResult.ok (LoggerState.mk false (some FileHandle.stderr) ZLOG_INFO)
        [Event.write FileHandle.stderr "m", Event.flush FileHandle.stderr] ∧
    (LoggerState.mk false (some FileHandle.stderr) ZLOG_INFO).g_lock = false := by
  refine ⟨rfl, ?_⟩
  exact (C9_lock_released false "m"
      (LoggerState.mk false (some FileHandle.stderr) ZLOG_INFO) rfl).2.2.1
    (LoggerState.mk false (some FileHandle.stderr) ZLOG_INFO)
    [Event.write FileHandle.stderr "m", Event.flush FileHandle.stderr] rfl

/-- Claim C10: starting from any state, after zlog_shutdown the sink is
NULL, and with assertions compiled out every emission call at every
severity returns without aborting and produces no events at all: zero
bytes reach every stream, with no fallback to the default error stream.
Stated for each of the six emission functions. -/
theorem C10_emission_after_shutdown_silent (s0 : LoggerState) (msg : String) :
    resultEvents (zlog_trace false msg (zlog_shutdown s0).1) = some [] ∧
    resultEvents (zlog_debug false msg (zlog_shutdown s0).1) = some [] ∧
    resultEvents (zlog_info false msg (zlog_shutdown s0).1) = some [] ∧
    resultEvents (zlog_warn false msg (zlog_shutdown s0).1) = some [] ∧
    resultEvents (zlog_err false msg (zlog_shutdown s0).1) = some [] ∧
    resultEvents (zlog_fatal false msg (zlog_shutdown s0).1) = some [] := by
  have h : (zlog_shutdown s0).1.g_output = none := rfl
  exact ⟨resultEvents_emit_none_noasserts ZLOG_TRACE msg _ h,
    resultEvents_emit_none_noasserts ZLOG_DEBUG msg _ h,
    resultEvents_emit_none_noasserts ZLOG_INFO msg _ h,
    resultEvents_emit_none_noasserts ZLOG_WARN msg _ h,
    resultEvents_emit_none_noasserts ZLOG_ERR msg _ h,
    resultEvents_emit_none_noasserts ZLOG_FATAL msg _ h⟩

/-- Claim C8: the stored threshold is always a valid Severity member:
validity holds in the start state, and every public API call, with any
arguments, from any state with a valid threshold and whether or not
assertions are compiled in, yields a state with a valid threshold. -/
theorem C8_threshold_always_valid :
    validLevel initialState.g_level ∧
    ∀ (a : Bool) (c : ApiCall) (s s' : LoggerState),
      validLevel s.g_level → stepCall a c s = some s' →
      validLevel s'.g_level := by
  refine ⟨by decide, ?_⟩
  intro a c s s' hv hstep
  cases c with
  | init out level =>
    simp only [stepCall] at hstep
    injection hstep with hstep
    subst hstep
    exact validate_level_valid level
  | shutdown =>
    simp only [stepCall] at hstep
    injection hstep with hstep
    subst hstep
    exact hv
  | setLevel level =>
    simp only [stepCall] at hstep
    injection hstep with hstep
    subst hstep
    exact validate_level_valid level
  | getLevel =>
    simp only [stepCall] at hstep
    injection hstep with hstep
    subst hstep
    exact hv
  | trace msg =>
    simp only [stepCall] at hstep
    obtain ⟨evs, hok⟩ := resultState_eq_some _ _ hstep
    rcases zlog_emit_ok_inv a ZLOG_TRACE msg s s' evs hok with rfl | rfl
    · exact hv
    · exact hv
  | debugCall msg =>
    simp only [stepCall] at hstep
    obtain ⟨evs, hok⟩ := resultState_eq_some _ _ hstep
    rcases zlog_emit_ok_inv a ZLOG_DEBUG msg s s' evs hok with rfl | rfl
    · exact hv
    · exact hv
  | info msg =>
    simp only [stepCall] at hstep
    obtain ⟨evs, hok⟩ := resultState_eq_some _ _ hstep
    rcases zlog_emit_ok_inv a ZLOG_INFO msg s s' evs hok with rfl | rfl
    · exact hv
    · exact hv
  | warn msg =>
    simp only [stepCall] at hstep
    obtain ⟨evs, hok⟩ := resultState_eq_some _ _ hstep
    rcases zlog_emit_ok_inv a ZLOG_WARN msg s s' evs hok with rfl | rfl
    · exact hv
    · exact hv
  | err msg =>
    simp only [stepCall] at hstep
    obtain ⟨evs, hok⟩ := resultState_eq_some _ _ hstep
    rcases zlog_emit_ok_inv a ZLOG_ERR msg s s' evs hok with rfl | rfl
    · exact hv
    · exact hv
  | fatal msg =>
    simp only [stepCall] at hstep
    obtain ⟨evs, hok⟩ := resultState_eq_some _ _ hstep
    rcases zlog_emit_ok_inv a ZLOG_FATAL msg s s' evs hok with rfl | rfl
    · exact hv
    · exact hv

/-- Claim C8, witness: one preservation instance, the out-of-range call
zlog_set_level 99, whose result state has the valid threshold Info. -/
theorem C8_witness :
    validLevel (LoggerState.mk false none ZLOG_INFO).g_level :=
  C8_threshold_always_valid.2 false (ApiCall.setLevel 99) initialState
    (LoggerState.mk false none ZLOG_INFO) (by decide) (by decide)

theorem concInv_init (n : Nat) (msgs : Fin n → List Char) :
    ConcInv msgs (initConc n) := by
  refine ⟨[], List.nodup_nil, ?_, ?_, rfl⟩
  · intro j
    constructor
    · intro hj
      cases hj
    · intro hj
      cases hj
  · intro j rest hj
    cases hj

theorem concInv_step {n : Nat} {msgs : Fin n → List Char} {s t : ConcState n}
    (hstep : CStep msgs s t) (hinv : ConcInv msgs s) : ConcInv msgs t := by
  obtain ⟨order, hnd, hdone, hw⟩ := hinv
  cases hstep with
  | acquire i hpc hown =>
    simp only [WriterInv, hown] at hw
    obtain ⟨hnw, hout⟩ := hw
    refine ⟨order, hnd, ?_, ?_⟩
    · intro j
      dsimp only
      by_cases hji : j = i
      · subst hji
        rw [Function.update_same]
        constructor
        · intro hcontra
          cases hcontra
        · intro hmem
          have hd := (hdone j).mpr hmem
          rw [hpc] at hd
          cases hd
      · rw [Function.update_noteq hji]
        exact hdone j
    · simp only [WriterInv]
      refine ⟨[], msgs i, ?_, by simp, ?_, ?_⟩
      · exact Function.update_same i _ _
      · dsimp only
        rw [hout, List.append_nil]
      · intro j hji rest hj
        rw [Function.update_noteq hji] at hj
        exact hnw j rest hj
  | writeByte i b rest hpc hown =>
    simp only [WriterInv, hown] at hw
    obtain ⟨written, rest1, hpci, hmsg, hout, hothers⟩ := hw
    rw [hpc] at hpci
    injection hpci with hrest
    subst hrest
    refine ⟨order, hnd, ?_, ?_⟩
    · intro j
      dsimp only
      by_cases hji : j = i
      · subst hji
        rw [Function.update_same]
        constructor
        · intro hcontra
          cases hcontra
        · intro hmem
          have hd := (hdone j).mpr hmem
          rw [hpc] at hd
          cases hd
      · rw [Function.update_noteq hji]
        exact hdone j
    · simp only [WriterInv, hown]
      refine ⟨written ++ [b], rest, Function.update_same i _ _, ?_, ?_, ?_⟩
      · rw [hmsg]
        simp
      · dsimp only
        rw [hout, List.append_assoc]
      · intro j hji rest2 hj
        rw [Function.update_noteq hji] at hj
        exact hothers j hji rest2 hj
  | release i hpc hown =>
    simp only [WriterInv, hown] at hw
    obtain ⟨written, rest1, hpci, hmsg, hout, hothers⟩ := hw
    rw [hpc] at hpci
    injection hpci with hrest
    subst hrest
    rw [List.append_nil] at hmsg
    have hnotin : i ∉ order := by
      intro hmem
      have hd := (hdone i).mpr hmem
      rw [hpc] at hd
      cases hd
    refine ⟨order ++ [i], ?_, ?_, ?_⟩
    · rw [List.nodup_append]
      refine ⟨hnd, List.nodup_singleton i, ?_⟩
      intro a ha hb
      rw [List.mem_singleton] at hb
      subst hb
      exact hnotin ha
    · intro j
      dsimp only
      by_cases hji : j = i
      · subst hji
        rw [Function.update_same]
        simp
      · rw [Function.update_noteq hji]
        rw [List.mem_append, List.mem_singleton]
        constructor
        · intro hd
          exact Or.inl ((hdone j).mp hd)
        · intro hd
          rcases hd with hd | hd
          · exact (hdone j).mpr hd
          · exact absurd hd hji
    · simp only [WriterInv]
      constructor
      · intro j rest2 hj
        by_cases hji : j = i
        · subst hji
          rw [Function.update_same] at hj
          cases hj
        · rw [Function.update_noteq hji] at hj
          exact hothers j hji rest2 hj
      · dsimp only
        rw [hout, List.map_append, List.flatten_append]
        simp [hmsg]

theorem concInv_reachable {n : Nat} {msgs : Fin n → List Char}
    {s : ConcState n}
    (h : Relation.ReflTransGen (CStep msgs) (initConc n) s) :
    ConcInv msgs s := by
  induction h with
  | refl => exact concInv_init n msgs
  | tail hsteps hstep ih => exact concInv_step hstep ih

/-- Claim C4: in the interleaved model of N threads each performing one
at-or-above-threshold emission, decomposed into an atomic lock
acquisition (the successful compare-and-swap of spinlock_lock), byte-wise
writes inside the critical section, and the lock release, every complete
execution leaves the sink holding the concatenation of the N complete
rendered messages in some order: no byte of one message sits inside
another message. -/
theorem C4_serialized_writes {n : Nat} (msgs : Fin n → List Char)
    (s : ConcState n)
    (hreach : Relation.ReflTransGen (CStep msgs) (initConc n) s)
    (hdone : ∀ j, s.pcs j = ThreadPC.done) :
    ∃ order : List (Fin n), order.Perm (List.finRange n) ∧
      s.out = (order.map msgs).flatten := by
  obtain ⟨order, hnd, hiff, hw⟩ := concInv_reachable hreach
  cases hown : s.owner with
  | some i =>
    simp only [WriterInv, hown] at hw
    obtain ⟨written, rest, hpci, _⟩ := hw
    rw [hdone i] at hpci
    cases hpci
  | none =>
    simp only [WriterInv, hown] at hw
    refine ⟨order, ?_, hw.2⟩
    rw [List.perm_ext_iff_of_nodup hnd (List.nodup_finRange n)]
    intro j
    constructor
    · intro _
      exact List.mem_finRange j
    · intro _
      exact (hiff j).mp (hdone j)

/-- Claim C4, witness: two threads with distinct one-byte payloads run to
completion along an explicit interleaving; the theorem yields an order
whose concatenation is the final sink contents. -/
theorem C4_witness :
    ∃ s : ConcState 2,
      Relation.ReflTransGen
        (CStep (fun i : Fin 2 => if i = 0 then ['a'] else ['b']))
        (initConc 2) s ∧
      (∀ j, s.pcs j = ThreadPC.done) ∧
      ∃ order : List (Fin 2), order.Perm (List.finRange 2) ∧
        s.out = (order.map
          (fun i : Fin 2 => if i = 0 then ['a'] else ['b'])).flatten := by
  let m : Fin 2 → List Char := fun i => if i = 0 then ['a'] else ['b']
  let s0 : ConcState 2 := initConc 2
  let s1 : ConcState 2 := { s0 with
    pcs := Function.update s0.pcs 0 (ThreadPC.writing (m 0)), owner := some 0 }
  let s2 : ConcState 2 := { s1 with
    pcs := Function.update s1.pcs 0 (ThreadPC.writing []), out := s1.out ++ ['a'] }
  let s3 : ConcState 2 := { s2 with
    pcs := Function.update s2.pcs 0 ThreadPC.done, owner := none }
  let s4 : ConcState 2 := { s3 with
    pcs := Function.update s3.pcs 1 (ThreadPC.writing (m 1)), owner := some 1 }
  let s5 : ConcState 2 := { s4 with
    pcs := Function.update s4.pcs 1 (ThreadPC.writing []), out := s4.out ++ ['b'] }
  let s6 : ConcState 2 := { s5 with
    pcs := Function.update s5.pcs 1 ThreadPC.done, owner := none }
  have chain : Relation.ReflTransGen (CStep m) s0 s6 :=
    Relation.ReflTransGen.tail (Relation.ReflTransGen.tail
      (Relation.ReflTransGen.tail (Relation.ReflTransGen.tail
        (Relation.ReflTransGen.tail
          (Relation.ReflTransGen.single (@CStep.acquire 2 m s0 0 rfl rfl))
          (@CStep.writeByte 2 m s1 0 'a' [] rfl rfl))
        (@CStep.release 2 m s2 0 rfl rfl))
      (@CStep.acquire 2 m s3 1 rfl rfl))
      (@CStep.writeByte 2 m s4 1 'b' [] rfl rfl))
      (@CStep.release 2 m s5 1 rfl rfl)
  have hdone : ∀ j, s6.pcs j = ThreadPC.done := by
    intro j
    fin_cases j <;> rfl
  exact ⟨s6, chain, hdone, C4_serialized_writes m s6 chain hdone⟩
